import Mathlib

/-!
Verification development for the ProjectT threat-intelligence dashboard.

The client-side record filtering, sorting, pagination and scan-progress
polling of this repository are embedded below as executable Lean definitions,
translated from the TypeScript/JavaScript sources:

* `src/frontend/projectt/app/page.tsx`  (news screen, `handleSearch`)
* `src/frontend/projectt/app/phishing/page.tsx` (phishing-route screen,
  `filteredNews`)
* `src/unnamed/part_001` (`PhishingDetection` component: `fetchSites`,
  `startScan`, `checkScanProgress`, unmount cleanup)
* `src/unnamed/part_002` (`ThreatsView`, `fetchThreats`)
* `src/unnamed/part_003` (dashboard `PhishingView`, `fetchPhishingSites`)

Modelling conventions: JavaScript `Date` values are epoch milliseconds
(`Int`), with `Invalid Date` rendered as `none`; the runtime clock and time
zone are taken as UTC (no DST), so `setDate(getDate() - n)` is subtraction of
`n * 86400000` ms and `setHours(23,59,59,999)` is flooring to the UTC day
start plus `86399999` ms.  String parsing of dates is modelled for the ISO
forms used by the data of the repository (`YYYY-MM-DD` and `YYYY-MM-DDTHH:MM:SSZ`);
all other strings parse to `Invalid Date` (`none`).  `toLowerCase` is
modelled on ASCII, which agrees with JavaScript on every string appearing in
the sources.  Possibly-absent object fields are `Option String`, with
JavaScript truthiness (`undefined`, `null` and the empty string are falsy).
-/

/-- Value of a decimal digit character, `none` otherwise. -/
def digitVal (c : Char) : Option Nat :=
  if c.isDigit then some (c.toNat - 48) else none

/-- Two-digit decimal number. -/
def num2 (a b : Char) : Option Nat := do
  let x ← digitVal a
  let y ← digitVal b
  pure (10 * x + y)

/-- Four-digit decimal number. -/
def num4 (a b c d : Char) : Option Nat := do
  let x ← digitVal a
  let y ← digitVal b
  let z ← digitVal c
  let w ← digitVal d
  pure (1000 * x + 100 * y + 10 * z + w)

/-- ASCII lower-casing of one character, as JavaScript `toLowerCase` acts on
the ASCII range. -/
def lowerChar (c : Char) : Char :=
  if 'A' ≤ c ∧ c ≤ 'Z' then Char.ofNat (c.toNat + 32) else c

/-- ASCII model of JavaScript `String.prototype.toLowerCase`. -/
def jsLower (s : String) : String :=
  String.mk (s.toList.map lowerChar)

/-- Whether the first list is an initial segment of the second. -/
def startsWithL : List Char → List Char → Bool
  | [], _ => true
  | _ :: _, [] => false
  | a :: as, b :: bs => a == b && startsWithL as bs

/-- Whether the first list occurs as a contiguous run inside the second. -/
def occursIn (p : List Char) : List Char → Bool
  | [] => startsWithL p []
  | b :: bs => startsWithL p (b :: bs) || occursIn p bs

/-- Model of JavaScript `String.prototype.includes`. -/
def containsS (hay needle : String) : Bool :=
  occursIn needle.toList hay.toList

/-- Gregorian leap year. -/
def isLeapYear (y : Int) : Bool :=
  (Int.emod y 4 == 0 && Int.emod y 100 != 0) || Int.emod y 400 == 0

/-- Length of a month of the Gregorian calendar. -/
def daysInMonthI (y m : Int) : Int :=
  if m = 2 then (if isLeapYear y then 29 else 28)
  else if m = 4 ∨ m = 6 ∨ m = 9 ∨ m = 11 then 30
  else 31

/-- Days from the Unix epoch to civil date `y-m-d` (standard civil-calendar
algorithm; linear in `d`, so a day-of-month past the end of the month rolls
into the following month exactly as JavaScript `Date` component overflow
does). -/
def daysFromCivil (y m d : Int) : Int :=
  let y2 := if m ≤ 2 then y - 1 else y
  let era := Int.ediv y2 400
  let yoe := y2 - era * 400
  let mp := Int.emod (m + 9) 12
  let doy := Int.ediv (153 * mp + 2) 5 + d - 1
  let doe := yoe * 365 + Int.ediv yoe 4 - Int.ediv yoe 100 + doy
  era * 146097 + doe - 719468

/-- Civil date `(y, m, d)` of a day count from the Unix epoch (inverse of
`daysFromCivil`). -/
def civilFromDays (z0 : Int) : Int × Int × Int :=
  let z := z0 + 719468
  let era := Int.ediv z 146097
  let doe := z - era * 146097
  let yoe := Int.ediv (doe - Int.ediv doe 1460 + Int.ediv doe 36524 - Int.ediv doe 146096) 365
  let y := yoe + era * 400
  let doy := doe - (365 * yoe + Int.ediv yoe 4 - Int.ediv yoe 100)
  let mp := Int.ediv (5 * doy + 2) 153
  let d := doy - Int.ediv (153 * mp + 2) 5 + 1
  let m := if mp < 10 then mp + 3 else mp - 9
  (if m ≤ 2 then y + 1 else y, m, d)

/-- Day count of a calendar-valid `y-m-d`, `none` when the components are out
of range (JavaScript rejects out-of-range components of ISO date strings). -/
def ymdDays (y m d : Nat) : Option Int :=
  if 1 ≤ m ∧ m ≤ 12 ∧ 1 ≤ d ∧ (d : Int) ≤ daysInMonthI (y : Int) (m : Int)
  then some (daysFromCivil (y : Int) (m : Int) (d : Int))
  else none

/-- Model of `new Date(s)` for the ISO strings the records of the repository use:
`YYYY-MM-DD` is UTC midnight of that day and `YYYY-MM-DDTHH:MM:SSZ` adds the
UTC time of day; every other string is `Invalid Date` (`none`).  The result
is epoch milliseconds. -/
def parseDate (s : String) : Option Int :=
  match s.toList with
  | [y1, y2, y3, y4, '-', m1, m2, '-', d1, d2] => do
      let y ← num4 y1 y2 y3 y4
      let m ← num2 m1 m2
      let d ← num2 d1 d2
      let days ← ymdDays y m d
      pure (days * 86400000)
  | [y1, y2, y3, y4, '-', m1, m2, '-', d1, d2, 'T', h1, h2, ':', i1, i2, ':', s1, s2, 'Z'] => do
      let y ← num4 y1 y2 y3 y4
      let m ← num2 m1 m2
      let d ← num2 d1 d2
      let hh ← num2 h1 h2
      let mi ← num2 i1 i2
      let ss ← num2 s1 s2
      if hh ≤ 23 ∧ mi ≤ 59 ∧ ss ≤ 59 then
        let days ← ymdDays y m d
        pure (days * 86400000 + ((hh * 3600 + mi * 60 + ss : Nat) : Int) * 1000)
      else none
  | _ => none

/-- Model of `endDateObj.setHours(23, 59, 59, 999)` under a UTC clock: floor
to the start of the UTC day, then add `86399999` ms. -/
def endOfDay (t : Int) : Int :=
  Int.ediv t 86400000 * 86400000 + 86399999

/-- Model of `oneMonthAgo.setMonth(now.getMonth() - 1)` under a UTC clock:
same day-of-month and time of day, one calendar month earlier, day overflow
rolling forward as JavaScript does. -/
def oneMonthAgoMillis (now : Int) : Int :=
  let days := Int.ediv now 86400000
  let tod := Int.emod now 86400000
  let c := civilFromDays days
  let y := c.1
  let m := c.2.1
  let d := c.2.2
  let p := if m = 1 then (y - 1, (12 : Int)) else (y, m - 1)
  daysFromCivil p.1 p.2 d * 86400000 + tod

/-- JavaScript truthiness of a possibly-absent string field: `undefined`,
`null` and the empty string are falsy. -/
def truthyStr : Option String → Bool
  | none => false
  | some s => !(s == "")

/-- JavaScript strict equality `field === sel` between a possibly-absent
string field and a string (absent fields compare unequal to every string). -/
def optEqStr : Option String → String → Bool
  | none, _ => false
  | some s, t => s == t

/-- JavaScript `t >= v` where `v` may be an `Invalid Date` (`NaN` comparisons
are false). -/
def jsGEopt (t : Int) : Option Int → Bool
  | some v => decide (v ≤ t)
  | none => false

/-- JavaScript `t <= v` where `v` may be an `Invalid Date`. -/
def jsLEopt (t : Int) : Option Int → Bool
  | some v => decide (t ≤ v)
  | none => false

/-- News record (`page.tsx`); fields checked for presence by the code are
`Option String`. -/
structure Article where
  title : String
  summary : String
  url : String
  source : String
  category : Option String
  severity : Option String
  cve : Option String
  published_date : Option String
deriving DecidableEq, Repr

/-- Article with only a publication date, as in the sort example of the spec. -/
def mkArt (pd : Option String) : Article :=
  { title := "", summary := "", url := "", source := "",
    category := none, severity := none, cve := none, published_date := pd }

/-- Filter inputs of the `handleSearch` of the news screen (component state read by
the function). -/
structure NewsCriteria where
  selectedCategory : String
  selectedSeverity : String
  selectedCVE : String
  timeFilter : String
  useDateRange : Bool
  startDate : String
  endDate : String
deriving DecidableEq, Repr

/-- `handleSearch` clause 1 (`page.tsx` lines 96-99): category is "All", or
the category of the record is truthy and lower-case-equal to the selection. -/
def categoryClause (c : NewsCriteria) (a : Article) : Bool :=
  c.selectedCategory == "All" ||
    (truthyStr a.category &&
      jsLower (a.category.getD "") == jsLower c.selectedCategory)

/-- `handleSearch` clause 2 (`page.tsx` lines 101-104). -/
def severityClause (c : NewsCriteria) (a : Article) : Bool :=
  c.selectedSeverity == "All" ||
    (truthyStr a.severity &&
      jsLower (a.severity.getD "") == jsLower c.selectedSeverity)

/-- `handleSearch` clause 3 (`page.tsx` lines 106-109). -/
def cveClause (c : NewsCriteria) (a : Article) : Bool :=
  c.selectedCVE == "All" ||
    (truthyStr a.cve && jsLower (a.cve.getD "") == jsLower c.selectedCVE)

/-- `handleSearch` clause 4 (`page.tsx` lines 111-149).  `dateMatch` starts
true and stays true when `published_date` is falsy.  When the field parses,
the selected window is applied (`oneDayAgo`/`oneWeekAgo` are plain-day
subtractions under UTC, `oneMonthAgo` a calendar-month step).  When it does
not parse, the debug `articleDate.toISOString()` call throws a `RangeError`
that the surrounding catch turns into `dateMatch = false`, whatever the
window.  A custom range compares against `startDateObj`/`endDateObj`, each
`null` for an empty input string, with the end date pushed to the end of its
day. -/
def dateClause (c : NewsCriteria) (now : Int) (a : Article) : Bool :=
  if truthyStr a.published_date then
    match parseDate (a.published_date.getD "") with
    | none => false
    | some t =>
      if c.timeFilter == "Custom" && c.useDateRange then
        let startObj : Option (Option Int) :=
          if c.startDate == "" then none else some (parseDate c.startDate)
        let endObj : Option (Option Int) :=
          if c.endDate == "" then none
          else some ((parseDate c.endDate).map endOfDay)
        match startObj, endObj with
        | some sv, some ev => jsGEopt t sv && jsLEopt t ev
        | some sv, none => jsGEopt t sv
        | none, some ev => jsLEopt t ev
        | none, none => true
      else if c.timeFilter == "Latest" then decide (now - 86400000 ≤ t)
      else if c.timeFilter == "Last Week" then decide (now - 604800000 ≤ t)
      else if c.timeFilter == "Last Month" then decide (oneMonthAgoMillis now ≤ t)
      else true
  else true

/-- Body of the `news.filter` callback in `handleSearch` (`page.tsx` lines
92-157): the four clauses combined by `&&`. -/
def newsPass (c : NewsCriteria) (now : Int) (a : Article) : Bool :=
  categoryClause c a && severityClause c a && cveClause c a && dateClause c now a

/-- The sort comparator of `handleSearch` (`page.tsx` lines 162-186): a falsy
or unparsable `published_date` sorts the record last (the record with it
compares greater), otherwise newest first via `dateB - dateA`. -/
def compareNewsDesc (a b : Article) : Int :=
  if !truthyStr a.published_date then 1
  else if !truthyStr b.published_date then -1
  else
    match parseDate (a.published_date.getD ""), parseDate (b.published_date.getD "") with
    | none, _ => 1
    | some _, none => -1
    | some ta, some tb => tb - ta

/-- Stable insertion of one element by a JavaScript-style comparator (keep
the inserted element before `y` exactly when the comparator is not
positive). -/
def insertCmp (cmp : α → α → Int) (x : α) : List α → List α
  | [] => [x]
  | y :: ys => if cmp x y ≤ 0 then x :: y :: ys else y :: insertCmp cmp x ys

/-- Stable sort by a JavaScript-style comparator, modelling
`Array.prototype.sort`. -/
def sortCmp (cmp : α → α → Int) : List α → List α
  | [] => []
  | x :: xs => insertCmp cmp x (sortCmp cmp xs)

/-- The record pipeline of `handleSearch` (`page.tsx` lines 92-188): filter by
the four clauses, then sort a copy of the result newest-first.  (With an
empty `news` the function returns early leaving state unchanged; the pipeline
value is the empty list in that case as well.) -/
def handleSearch (news : List Article) (c : NewsCriteria) (now : Int) : List Article :=
  sortCmp compareNewsDesc (news.filter (newsPass c now))

/-- Filter inputs of the `filteredNews` of the phishing-route screen
(`phishing/page.tsx`). -/
structure RangeCriteria where
  selectedCategory : String
  selectedSeverity : String
  selectedCVE : String
  startDate : String
  endDate : String
deriving DecidableEq, Repr

/-- `filteredNews` category clause (`phishing/page.tsx` line 52): strict
equality, no lower-casing. -/
def rCatClause (c : RangeCriteria) (a : Article) : Bool :=
  c.selectedCategory == "All" || optEqStr a.category c.selectedCategory

/-- `filteredNews` severity clause (`phishing/page.tsx` line 53). -/
def rSevClause (c : RangeCriteria) (a : Article) : Bool :=
  c.selectedSeverity == "All" || optEqStr a.severity c.selectedSeverity

/-- `filteredNews` CVE clause (`phishing/page.tsx` line 54). -/
def rCveClause (c : RangeCriteria) (a : Article) : Bool :=
  c.selectedCVE == "All" || optEqStr a.cve c.selectedCVE

/-- `filteredNews` date-range clause for an already-parsed timestamp
(`phishing/page.tsx` lines 62-64): each bound applies when its input string
is non-empty; the end bound is the parsed end date itself (midnight), not the
end of that day. -/
def rRangeClause (c : RangeCriteria) (t : Int) : Bool :=
  (c.startDate == "" || jsGEopt t (parseDate c.startDate)) &&
  (c.endDate == "" || jsLEopt t (parseDate c.endDate))

/-- Body of the `news.filter` callback defining `filteredNews`
(`phishing/page.tsx` lines 51-67): records with a falsy or unparsable
`published_date` are rejected outright; otherwise the three categorical
clauses and the date range combine by `&&`. -/
def filteredNewsPass (c : RangeCriteria) (a : Article) : Bool :=
  if truthyStr a.published_date then
    match parseDate (a.published_date.getD "") with
    | none => false
    | some t =>
      rCatClause c a && rSevClause c a && rCveClause c a && rRangeClause c t
  else false

/-- The `filteredNews` computation of the phishing-route screen. -/
def filteredNewsFilter (news : List Article) (c : RangeCriteria) : List Article :=
  news.filter (filteredNewsPass c)

/-- Phishing-site record of the dashboard (`src/unnamed/part_003` mock data),
projected to the fields `fetchPhishingSites` reads. -/
structure SiteRec where
  id : String
  url : String
  detectedDate : String
  similarityScore : Int
  status : String
  targetPage : String
deriving DecidableEq, Repr

/-- Filter inputs of the `fetchPhishingSites` of the dashboard
(`src/unnamed/part_003`). -/
structure PhishFilters where
  timeRange : String
  searchQuery : String
  thresholdScore : Int
  targetFilter : String
  activeTab : String
deriving DecidableEq, Repr

/-- Model of `parseInt` for the plain decimal strings the time-range select
produces; any other string yields `NaN` (`none`). -/
def parseIntS (s : String) : Option Int :=
  match s.toList with
  | [] => none
  | l => if l.all (fun c => c.isDigit)
         then some ((l.foldl (fun acc c => 10 * acc + (c.toNat - 48)) 0 : Nat) : Int)
         else none

/-- Time-range stage of `fetchPhishingSites` (`part_003` lines 184-188): keep
sites whose `detectedDate` parses to at least `now` minus the selected number
of days (`setDate(getDate() - n)` under UTC); with an unparsable range or
date the JavaScript comparison against `NaN` is false. -/
def phishTimeClause (p : PhishFilters) (now : Int) (s : SiteRec) : Bool :=
  match parseIntS p.timeRange, parseDate s.detectedDate with
  | some n, some t => decide (now - n * 86400000 ≤ t)
  | _, _ => false

/-- Search stage of `fetchPhishingSites` (`part_003` lines 191-197):
case-insensitive substring match of the query over `url` and `targetPage`. -/
def phishSearchClause (p : PhishFilters) (s : SiteRec) : Bool :=
  containsS (jsLower s.url) (jsLower p.searchQuery) ||
  containsS (jsLower s.targetPage) (jsLower p.searchQuery)

/-- Status stage of `fetchPhishingSites` (`part_003` lines 208-214). -/
def phishStatusStage (tab : String) (l : List SiteRec) : List SiteRec :=
  if tab == "detected" then
    l.filter (fun s => s.status == "active" || s.status == "monitoring")
  else if tab == "mitigated" then
    l.filter (fun s => s.status == "taken-down")
  else l

/-- The filter pipeline of the `fetchPhishingSites` of the dashboard
(`src/unnamed/part_003` lines 180-216): a copy of the mock list run through
the time-range, search, similarity-threshold, target-page and status stages
in that order, each active stage a `filter`. -/
def fetchPhishingSitesFilter (sites : List SiteRec) (p : PhishFilters) (now : Int) : List SiteRec :=
  let f0 := sites
  let f1 := if p.timeRange != "all" then f0.filter (phishTimeClause p now) else f0
  let f2 := if p.searchQuery != "" then f1.filter (phishSearchClause p) else f1
  let f3 := f2.filter (fun s => decide (p.thresholdScore ≤ s.similarityScore))
  let f4 := if p.targetFilter != "all" then f3.filter (fun s => s.targetPage == p.targetFilter) else f3
  if p.activeTab != "all" then phishStatusStage p.activeTab f4 else f4

/-- Modelled from the spec: the backend paging behind `GET /api/phishing/sites`
(`fetchSites`, `src/unnamed/part_001`) and `GET /api/threats` (`fetchThreats`,
`src/unnamed/part_002`).  The server is not in the repository; spec section
4.1 gives `filter(records, criteria, sort, page, pageSize) ->
(pageOfRecords, totalMatches)` with 1-indexed fixed-size pages over the
filtered, sorted list. -/
def paginate (l : List α) (page n : Nat) : List α :=
  (l.drop ((page - 1) * n)).take n

/-- Modelled from the spec: the page of records together with the total match
count returned by the backend filter. -/
def filterResult (l : List α) (page n : Nat) : List α × Nat :=
  (paginate l page n, l.length)

/-- Number of pages needed to cover `len` records at `n` per page
(`Math.ceil(totalCount / pageSize)`). -/
def ceilD (len n : Nat) : Nat :=
  (len + n - 1) / n

/-- The page count kept by the client: `Math.ceil(totalCount / pageSize) || 1`
(`src/unnamed/part_001` line 107). -/
def totalPagesOf (len n : Nat) : Nat :=
  max (ceilD len n) 1

/-- Concatenation of pages `1` through `k` of `l` at page size `n`. -/
def pagesConcat (l : List α) (n : Nat) : Nat → List α
  | 0 => []
  | k + 1 => pagesConcat l n k ++ paginate l (k + 1) n

/-- State of the scan machinery of the phishing screen (`src/unnamed/part_001`):
the `scanInterval` React state variable, the set of interval timers actually
installed in the browser, the `scanInProgress` flag, and a count of the
`fetchSites(); fetchStats();` refresh rounds run by `checkScanProgress`.
(The `useState` declarations themselves sit in a truncated stretch of the
source near line 55; they are reconstructed from the setters used —
`setScanInterval` etc. — with initial `scanInterval` value null, the value
the `if (scanInterval)` guards test for.) -/
structure ScanSys where
  scanIntervalState : Option Nat
  intervalsLive : List Nat
  scanInProgress : Bool
  refreshes : Nat
deriving DecidableEq, Repr

/-- Freshly mounted component: no interval installed, `scanInterval` null. -/
def initScanSys : ScanSys :=
  { scanIntervalState := none, intervalsLive := [], scanInProgress := false,
    refreshes := 0 }

/-- `startScan` (`src/unnamed/part_001` lines 134-171): installs a new
3-second interval whose callback runs the `checkScanProgress` closure of the
render in which `startScan` executed, then stores the interval id with
`setScanInterval`.  That closure captured the value the `scanInterval` state
had in that render — the value from before `setScanInterval(interval)` took
effect — so the step returns it alongside the new state. -/
def startScanStep (freshId : Nat) (s : ScanSys) : ScanSys × Option Nat :=
  ({ s with scanInProgress := true,
            intervalsLive := s.intervalsLive ++ [freshId],
            scanIntervalState := some freshId },
   s.scanIntervalState)

/-- `checkScanProgress` (`src/unnamed/part_001` lines 174-204) as executed by
the interval callback, whose closure holds `captured` as its `scanInterval`:
on a terminal status (`"completed"` or `"error"`) it clears `captured` if
non-null, drops the flag and runs one `fetchSites(); fetchStats();` refresh;
on any other status it only records the progress snapshot. -/
def tickStep (captured : Option Nat) (status : String) (s : ScanSys) : ScanSys :=
  if status == "completed" || status == "error" then
    let s1 :=
      match captured with
      | some i =>
          { s with intervalsLive := s.intervalsLive.filter (fun j => j ≠ i),
                   scanIntervalState := none }
      | none => s
    { s1 with scanInProgress := false, refreshes := s1.refreshes + 1 }
  else s

/-- One scan started on a freshly mounted screen: `startScan` installs
interval `1`, and each 3-second period in which the interval is still
installed fires one `checkScanProgress` tick with the next reported
status. -/
def runScan (statuses : List String) : ScanSys :=
  let p := startScanStep 1 initScanSys
  statuses.foldl
    (fun s st => if s.intervalsLive.contains 1 then tickStep p.2 st s else s)
    p.1

/-- The unmount cleanup (`src/unnamed/part_001` lines 306-316): the effect has
an empty dependency list, so it ran once at mount and its cleanup closure
captured the `scanInterval` value of the first render; at teardown it clears that
value if non-null. -/
def unmountCleanup (capturedAtMount : Option Nat) (s : ScanSys) : ScanSys :=
  match capturedAtMount with
  | some i => { s with intervalsLive := s.intervalsLive.filter (fun j => j ≠ i) }
  | none => s

/-- A scan run followed by navigation away from the screen: on the first
render `scanInterval` is the initial null, which is what the mount-time
cleanup closure captured. -/
def runScanThenUnmount (statuses : List String) : ScanSys :=
  unmountCleanup none (runScan statuses)

/-- Explicit array store with identity: JavaScript arrays as numbered cells,
so that in-place operations (`Array.prototype.sort`) are visible as writes
while `filter` and spread allocate fresh cells. -/
structure StoreOf (α : Type) where
  mem : Nat → List α
  next : Nat

/-- Allocate a fresh array cell. -/
def StoreOf.alloc (σ : StoreOf α) (v : List α) : StoreOf α × Nat :=
  ({ mem := fun i => if i = σ.next then v else σ.mem i, next := σ.next + 1 },
   σ.next)

/-- Overwrite an existing array cell (an in-place mutation). -/
def StoreOf.write (σ : StoreOf α) (i : Nat) (v : List α) : StoreOf α :=
  { σ with mem := fun j => if j = i then v else σ.mem j }

/-- The array operations of `handleSearch` on the explicit store (`page.tsx` lines
92-188): `news.filter(...)` allocates a fresh array, the spread
`[...filtered]` allocates a copy, and `.sort(...)` mutates that copy in
place; the source array is only read. -/
def handleSearchStore (σ : StoreOf Article) (newsId : Nat) (c : NewsCriteria)
    (now : Int) : StoreOf Article × Nat :=
  let p1 := σ.alloc ((σ.mem newsId).filter (newsPass c now))
  let p2 := p1.1.alloc (p1.1.mem p1.2)
  let σ3 := p2.1.write p2.2 (sortCmp compareNewsDesc (p2.1.mem p2.2))
  (σ3, p2.2)

/-- `filteredNews` on the explicit store (`phishing/page.tsx` lines 51-67):
a single `filter` allocating its result. -/
def filteredNewsStore (σ : StoreOf Article) (newsId : Nat) (c : RangeCriteria) :
    StoreOf Article × Nat :=
  σ.alloc ((σ.mem newsId).filter (filteredNewsPass c))

/-- `fetchPhishingSites` on the explicit store (`part_003` lines 180-216):
the spread `[...mockPhishingSites]` allocates a copy and every `filter` stage
allocates its result; no existing cell is written. -/
def fetchPhishingSitesStore (σ : StoreOf SiteRec) (srcId : Nat)
    (p : PhishFilters) (now : Int) : StoreOf SiteRec × Nat :=
  let c1 := σ.alloc (σ.mem srcId)
  let c2 := c1.1.alloc (fetchPhishingSitesFilter (c1.1.mem c1.2) p now)
  c2

theorem mem_insertCmp {α : Type} (cmp : α → α → Int) (x a : α) :
    ∀ l : List α, a ∈ insertCmp cmp x l ↔ a = x ∨ a ∈ l
  | [] => by simp [insertCmp]
  | y :: ys => by
      simp only [insertCmp]
      split
      · simp [List.mem_cons]
      · simp only [List.mem_cons, mem_insertCmp cmp x a ys]
        tauto

theorem mem_sortCmp {α : Type} (cmp : α → α → Int) (a : α) :
    ∀ l : List α, a ∈ sortCmp cmp l ↔ a ∈ l
  | [] => Iff.rfl
  | x :: xs => by
      simp [sortCmp, mem_insertCmp, mem_sortCmp cmp a xs]

theorem filteredNewsPass_eq_true {c : RangeCriteria} {a : Article} :
    filteredNewsPass c a = true ↔
      truthyStr a.published_date = true ∧
      ∃ t, parseDate (a.published_date.getD "") = some t ∧
        rCatClause c a = true ∧ rSevClause c a = true ∧ rCveClause c a = true ∧
        rRangeClause c t = true := by
  unfold filteredNewsPass
  cases h : truthyStr a.published_date
  · simp
  · cases hp : parseDate (a.published_date.getD "")
    · simp [hp]
    · simp [hp, and_assoc]

theorem mem_filterIf {α : Type} {b : Bool} {q : α → Bool} {l : List α} {s : α}
    (h : s ∈ (if b = true then l.filter q else l)) :
    s ∈ l ∧ (b = true → q s = true) := by
  cases b
  · simpa using h
  · simp only [if_pos] at h
    have h2 := List.mem_filter.mp h
    exact ⟨h2.1, fun _ => h2.2⟩

theorem mem_phishStatusStage {tab : String} {l : List SiteRec} {s : SiteRec}
    (h : s ∈ phishStatusStage tab l) :
    s ∈ l ∧ (tab = "detected" → s.status = "active" ∨ s.status = "monitoring")
        ∧ (tab = "mitigated" → s.status = "taken-down") := by
  unfold phishStatusStage at h
  by_cases h1 : tab = "detected"
  · subst h1
    rw [if_pos (by decide : (("detected" : String) == "detected") = true)] at h
    have h2 := List.mem_filter.mp h
    have hb := h2.2
    simp only [Bool.or_eq_true, beq_iff_eq] at hb
    exact ⟨h2.1, fun _ => hb, fun hc => absurd hc (by decide)⟩
  · have hb1 : (tab == "detected") = false := by simpa using h1
    rw [hb1] at h
    simp only [Bool.false_eq_true, if_false] at h
    by_cases h2 : tab = "mitigated"
    · subst h2
      rw [if_pos (by decide : (("mitigated" : String) == "mitigated") = true)] at h
      have h3 := List.mem_filter.mp h
      have hb := h3.2
      simp only [beq_iff_eq] at hb
      exact ⟨h3.1, fun hc => absurd hc (by decide), fun _ => hb⟩
    · have hb2 : (tab == "mitigated") = false := by simpa using h2
      rw [hb2] at h
      simp only [Bool.false_eq_true, if_false] at h
      exact ⟨h, fun hc => absurd hc h1, fun hc => absurd hc h2⟩

/-- C1.  Every record returned by `handleSearch` on the news screen, by
`filteredNews` on the phishing-route screen, or by `fetchPhishingSites` on
the dashboard individually satisfies every one of the active (non-"All"/non-"all") filter clauses — category, severity,
CVE/identifier, free-text search, similarity threshold and time window — the
clauses being combined by logical AND; no record failing an active clause
appears in the result. -/
theorem filterReturnsOnlyMatching :
    (∀ (news : List Article) (c : NewsCriteria) (now : Int) (a : Article),
        a ∈ handleSearch news c now →
        categoryClause c a = true ∧ severityClause c a = true ∧
        cveClause c a = true ∧ dateClause c now a = true)
  ∧ (∀ (news : List Article) (c : RangeCriteria) (a : Article),
        a ∈ filteredNewsFilter news c →
        rCatClause c a = true ∧ rSevClause c a = true ∧ rCveClause c a = true ∧
        ∃ t, parseDate (a.published_date.getD "") = some t ∧
          rRangeClause c t = true)
  ∧ (∀ (sites : List SiteRec) (p : PhishFilters) (now : Int) (s : SiteRec),
        s ∈ fetchPhishingSitesFilter sites p now →
        (p.timeRange ≠ "all" → phishTimeClause p now s = true) ∧
        (p.searchQuery ≠ "" → phishSearchClause p s = true) ∧
        p.thresholdScore ≤ s.similarityScore ∧
        (p.targetFilter ≠ "all" → s.targetPage = p.targetFilter) ∧
        (p.activeTab = "detected" → s.status = "active" ∨ s.status = "monitoring") ∧
        (p.activeTab = "mitigated" → s.status = "taken-down")) := by
  refine ⟨?_, ?_, ?_⟩
  · intro news c now a h
    rw [handleSearch, mem_sortCmp] at h
    have hp := (List.mem_filter.mp h).2
    unfold newsPass at hp
    simp only [Bool.and_eq_true] at hp
    exact ⟨hp.1.1.1, hp.1.1.2, hp.1.2, hp.2⟩
  · intro news c a h
    have hp := (List.mem_filter.mp h).2
    have h2 := filteredNewsPass_eq_true.mp hp
    obtain ⟨-, t, ht, h3, h4, h5, h6⟩ := h2
    exact ⟨h3, h4, h5, t, ht, h6⟩
  · intro sites p now s h
    unfold fetchPhishingSitesFilter at h
    by_cases htab : p.activeTab != "all"
    · rw [if_pos (by simpa using htab)] at h
      have h4 := mem_phishStatusStage h
      have h5 := mem_filterIf h4.1
      have h6 := List.mem_filter.mp h5.1
      have h7 := mem_filterIf h6.1
      have h8 := mem_filterIf h7.1
      refine ⟨?_, ?_, ?_, ?_, h4.2.1, h4.2.2⟩
      · intro htr
        exact h8.2 (by simpa using htr)
      · intro hsq
        exact h7.2 (by simpa using hsq)
      · simpa using h6.2
      · intro htf
        have := h5.2 (by simpa using htf)
        simpa using this
    · have htab2 : (p.activeTab != "all") = false := by simpa using htab
      rw [htab2] at h
      simp only [Bool.false_eq_true, if_false] at h
      have h5 := mem_filterIf h
      have h6 := List.mem_filter.mp h5.1
      have h7 := mem_filterIf h6.1
      have h8 := mem_filterIf h7.1
      have htabeq : p.activeTab = "all" := by
        by_contra hne
        exact htab (by simpa using hne)
      refine ⟨?_, ?_, ?_, ?_, ?_, ?_⟩
      · intro htr
        exact h8.2 (by simpa using htr)
      · intro hsq
        exact h7.2 (by simpa using hsq)
      · simpa using h6.2
      · intro htf
        have := h5.2 (by simpa using htf)
        simpa using this
      · intro hd
        rw [htabeq] at hd
        exact absurd hd (by decide)
      · intro hm
        rw [htabeq] at hm
        exact absurd hm (by decide)

/-- Concrete article used by the witnesses. -/
def artW : Article := mkArt (some "2025-02-20")

/-- Concrete news criteria used by the witnesses. -/
def critW : NewsCriteria :=
  { selectedCategory := "All", selectedSeverity := "All", selectedCVE := "All",
    timeFilter := "Latest", useDateRange := false, startDate := "", endDate := "" }

/-- Concrete phishing site used by the witnesses. -/
def siteW : SiteRec :=
  { id := "ps-001", url := "https://tamm-gov.net", detectedDate := "2025-02-24T15:20:00Z",
    similarityScore := 65, status := "monitoring", targetPage := "business-services" }

/-- Concrete dashboard filters used by the witnesses. -/
def phishW : PhishFilters :=
  { timeRange := "30", searchQuery := "", thresholdScore := 60,
    targetFilter := "all", activeTab := "all" }

/-- Witness for C1 at concrete inputs. -/
theorem filterReturnsOnlyMatching_w :
    dateClause critW 1740009600000 artW = true ∧
    (60 : Int) ≤ siteW.similarityScore :=
  ⟨(filterReturnsOnlyMatching.1 [artW] critW 1740009600000 artW (by decide)).2.2.2,
   (filterReturnsOnlyMatching.2.2 [siteW] phishW 1740500000000 siteW (by decide)).2.2.1⟩

/-- C2 counterexample: on the news screen a record with a missing timestamp
is NOT excluded by the non-"all" time window "Latest" — `handleSearch` keeps
it (`dateMatch` defaults to true when `published_date` is falsy), so the
universal exclusion stated by the claim fails. -/
theorem missingTimestampIncludedCx :
    handleSearch [mkArt none] critW 1740009600000 = [mkArt none] := by decide

/-- C2 as amended.  On the phishing-route screen every record `filteredNews`
returns has a truthy, parseable timestamp (missing or unparsable timestamps
are excluded under every date-range setting); on the news screen a record
with an unparsable timestamp fails the time-window clause under every
setting, but a record with a missing (falsy) timestamp always passes the
time-window clause and is returned whenever the other clauses match. -/
theorem timestampPolicyByScreen :
    (∀ (news : List Article) (c : RangeCriteria) (a : Article),
        a ∈ filteredNewsFilter news c →
        truthyStr a.published_date = true ∧
        (parseDate (a.published_date.getD "")).isSome = true)
  ∧ (∀ (c : NewsCriteria) (now : Int) (a : Article),
        truthyStr a.published_date = false → dateClause c now a = true)
  ∧ (∀ (c : NewsCriteria) (now : Int) (a : Article),
        truthyStr a.published_date = true →
        parseDate (a.published_date.getD "") = none →
        dateClause c now a = false) := by
  refine ⟨?_, ?_, ?_⟩
  · intro news c a h
    have hp := (List.mem_filter.mp h).2
    obtain ⟨h1, t, ht, -⟩ := filteredNewsPass_eq_true.mp hp
    exact ⟨h1, by rw [ht]; rfl⟩
  · intro c now a h
    unfold dateClause
    rw [h]
    rfl
  · intro c now a h hp
    unfold dateClause
    rw [h, hp]
    rfl

/-- Concrete range criteria (everything inactive) used by witnesses. -/
def rcritW : RangeCriteria :=
  { selectedCategory := "All", selectedSeverity := "All", selectedCVE := "All",
    startDate := "", endDate := "" }

/-- Witness for the amended C2 at concrete inputs. -/
theorem timestampPolicyByScreen_w :
    truthyStr artW.published_date = true ∧
    dateClause critW 1740009600000 (mkArt none) = true ∧
    dateClause critW 1740009600000 (mkArt (some "garbage")) = false :=
  ⟨(timestampPolicyByScreen.1 [artW] rcritW artW (by decide)).1,
   timestampPolicyByScreen.2.1 critW 1740009600000 (mkArt none) (by decide),
   timestampPolicyByScreen.2.2 critW 1740009600000 (mkArt (some "garbage"))
     (by decide) (by decide)⟩

/-- The timestamp a record contributes to sorting: its `published_date` when
truthy and parseable, otherwise nothing. -/
def tsOf (a : Article) : Option Int :=
  if truthyStr a.published_date = true then parseDate (a.published_date.getD "")
  else none

/-- C3.  The timestamp-descending comparator of `handleSearch` orders every
record with a parseable timestamp before every record with a missing or
invalid one (the former compares negative, the latter positive), orders
parseable records newest-first, and sorting the three-record list
`[Feb-20, Feb-10, missing]` by it returns exactly that order. -/
theorem sortComparatorNewestFirst :
    (∀ a b : Article, (tsOf a).isSome = true → (tsOf b).isSome = false →
        compareNewsDesc a b < 0 ∧ 0 < compareNewsDesc b a)
  ∧ (∀ (a b : Article) (ta tb : Int), tsOf a = some ta → tsOf b = some tb →
        tb < ta → compareNewsDesc a b < 0)
  ∧ sortCmp compareNewsDesc
        [mkArt (some "2025-02-20"), mkArt (some "2025-02-10"), mkArt none]
      = [mkArt (some "2025-02-20"), mkArt (some "2025-02-10"), mkArt none] := by
  refine ⟨?_, ?_, by decide⟩
  · intro a b ha hb
    unfold tsOf at ha hb
    by_cases hta : truthyStr a.published_date = true
    · rw [if_pos hta] at ha
      by_cases htb : truthyStr b.published_date = true
      · rw [if_pos htb] at hb
        cases hpa : parseDate (a.published_date.getD "") with
        | none => rw [hpa] at ha; simp at ha
        | some ta =>
          cases hpb : parseDate (b.published_date.getD "") with
          | some tb => rw [hpb] at hb; simp at hb
          | none => simp [compareNewsDesc, hta, htb, hpa, hpb]
      · have htb2 : truthyStr b.published_date = false := by simpa using htb
        cases hpa : parseDate (a.published_date.getD "") with
        | none => rw [hpa] at ha; simp at ha
        | some ta => simp [compareNewsDesc, hta, htb2, hpa]
    · rw [if_neg hta] at ha
      simp at ha
  · intro a b ta tb hta htb hlt
    unfold tsOf at hta htb
    by_cases h1 : truthyStr a.published_date = true
    · rw [if_pos h1] at hta
      by_cases h2 : truthyStr b.published_date = true
      · rw [if_pos h2] at htb
        simp only [compareNewsDesc, h1, h2, hta, htb, Bool.not_true,
          Bool.false_eq_true, if_false]
        omega
      · rw [if_neg h2] at htb
        simp at htb
    · rw [if_neg h1] at hta
      simp at hta

/-- Witness for C3 at concrete inputs. -/
theorem sortComparatorNewestFirst_w :
    compareNewsDesc artW (mkArt none) < 0 ∧
    compareNewsDesc artW (mkArt (some "2025-02-10")) < 0 :=
  ⟨(sortComparatorNewestFirst.1 artW (mkArt none) (by decide) (by decide)).1,
   sortComparatorNewestFirst.2.1 artW (mkArt (some "2025-02-10"))
     1740009600000 1739145600000 (by decide) (by decide) (by decide)⟩

theorem pagesConcat_eq_take {α : Type} (l : List α) (n : Nat) :
    ∀ k, pagesConcat l n k = l.take (k * n)
  | 0 => by simp [pagesConcat]
  | k + 1 => by
      rw [pagesConcat, pagesConcat_eq_take l n k, paginate]
      have hk : k + 1 - 1 = k := rfl
      rw [hk, Nat.succ_mul, List.take_add l (k * n) n]

theorem len_le_ceilD_mul (len n : Nat) (hn : 1 ≤ n) : len ≤ ceilD len n * n := by
  unfold ceilD
  have h1 := Nat.div_add_mod (len + n - 1) n
  have h2 : (len + n - 1) % n < n := Nat.mod_lt _ (by omega)
  rw [Nat.mul_comm]
  generalize hm : n * ((len + n - 1) / n) = m at h1 ⊢
  omega

/-- C4.  Modelled from the spec (the paging backend is not in the
repository): for every collection, page size at least 1, and any filtered,
sorted result `l`, concatenating pages 1 through the last page
(`Math.ceil(total / pageSize)`) reproduces `l` exactly — every record once,
none dropped, duplicated or reordered across page boundaries. -/
theorem allPagesConcatComplete {α : Type} (l : List α) (n : Nat) (hn : 1 ≤ n) :
    pagesConcat l n (ceilD l.length n) = l := by
  rw [pagesConcat_eq_take]
  exact List.take_of_length_le (len_le_ceilD_mul l.length n hn)

/-- Witness for C4 at a concrete list and page size. -/
theorem allPagesConcatComplete_w :
    pagesConcat [0, 1, 2, 3, 4] 2 (ceilD 5 2) = [0, 1, 2, 3, 4] :=
  allPagesConcatComplete [0, 1, 2, 3, 4] 2 (by decide)

/-- C5.  Modelled from the spec (the paging backend is not in the
repository): pagination is 1-indexed (page 1 is the first `pageSize`
records); requesting any page past the page count kept by the client
(`Math.ceil(total / pageSize) || 1`) returns an empty page; `totalMatches`
always equals the number of filtered records; and `page=1, pageSize=10` on an
empty filtered result returns `[]` with `totalMatches = 0`.  The paging
function is total, so no input signals an error. -/
theorem paginationSafeBeyondEnd :
    (∀ (α : Type) (l : List α) (n : Nat), paginate l 1 n = l.take n)
  ∧ (∀ (α : Type) (l : List α) (n p : Nat), 1 ≤ n →
        totalPagesOf l.length n < p → paginate l p n = [])
  ∧ (∀ (α : Type) (l : List α) (p n : Nat), (filterResult l p n).2 = l.length)
  ∧ (filterResult ([] : List Nat) 1 10).1 = []
  ∧ (filterResult ([] : List Nat) 1 10).2 = 0 := by
  refine ⟨?_, ?_, ?_, rfl, rfl⟩
  · intro α l n
    simp [paginate]
  · intro α l n p hn hp
    have hceil : ceilD l.length n ≤ p - 1 := by
      unfold totalPagesOf at hp
      omega
    have hmul : ceilD l.length n * n ≤ (p - 1) * n := mul_le_mul_right' hceil n
    have hlen : l.length ≤ (p - 1) * n :=
      le_trans (len_le_ceilD_mul l.length n hn) hmul
    rw [paginate, List.drop_eq_nil_of_le hlen, List.take_nil]
  · intro α l p n
    rfl

/-- Witness for C5 beyond-last-page behaviour at concrete inputs. -/
theorem paginationSafeBeyondEnd_w :
    paginate [0, 1, 2] 1 10 = [0, 1, 2] ∧ paginate [0, 1, 2] 2 10 = [] :=
  ⟨by
    have h := paginationSafeBeyondEnd.1 Nat [0, 1, 2] 10
    simpa using h,
   paginationSafeBeyondEnd.2.1 Nat [0, 1, 2] 10 2 (by decide) (by decide)⟩

theorem ciClause_iff (sel : String) (f : Option String) (h : sel ≠ "All") :
    ((sel == "All") || (truthyStr f && (jsLower (f.getD "") == jsLower sel))) = true ↔
      ∃ s, f = some s ∧ s ≠ "" ∧ jsLower s = jsLower sel := by
  have hb : (sel == "All") = false := by simpa using h
  rw [hb]
  cases f with
  | none => simp [truthyStr]
  | some s =>
      by_cases hs : s = ""
      · subst hs
        simp [truthyStr]
      · simp [truthyStr, hs]

theorem exactClause_iff (sel : String) (f : Option String) (h : sel ≠ "All") :
    ((sel == "All") || optEqStr f sel) = true ↔ f = some sel := by
  have hb : (sel == "All") = false := by simpa using h
  rw [hb]
  cases f with
  | none => simp [optEqStr]
  | some s => simp [optEqStr]

/-- Article with a capitalised category, used against lower-case criteria. -/
def artCase : Article :=
  { title := "", summary := "", url := "", source := "",
    category := some "Malware", severity := some "High", cve := none,
    published_date := some "2025-02-20" }

/-- Range criteria selecting the lower-cased category "malware". -/
def rcritCase : RangeCriteria :=
  { selectedCategory := "malware", selectedSeverity := "All", selectedCVE := "All",
    startDate := "", endDate := "" }

/-- C6 counterexample: the category clause of the phishing-route screen is
case-sensitive.  A record with category "Malware" and the non-"All"
selection "malware" are equal after lowercasing both, yet `filteredNews`
excludes the record, so the claimed pass-iff-lowercase-equal fails. -/
theorem caseSensitiveFilteredNewsCx :
    jsLower "Malware" = jsLower "malware" ∧
    filteredNewsFilter [artCase] rcritCase = [] :=
  ⟨by decide, by decide⟩

/-- C6 as amended.  Only `handleSearch` on the news screen matches its
categorical criteria case-insensitively: a record passes an active
category/severity/CVE clause there exactly when the field is present,
non-empty and lowercase-equal to the selection.  On the phishing-route screen,
`filteredNews` matches an active categorical criterion by exact,
case-sensitive equality, and the status filter of the dashboard likewise keeps
exactly the records whose `status` is literally "taken-down" on the
mitigated tab. -/
theorem categoricalMatchPerScreen :
    (∀ (c : NewsCriteria) (a : Article), c.selectedCategory ≠ "All" →
        (categoryClause c a = true ↔
          ∃ s, a.category = some s ∧ s ≠ "" ∧ jsLower s = jsLower c.selectedCategory))
  ∧ (∀ (c : NewsCriteria) (a : Article), c.selectedSeverity ≠ "All" →
        (severityClause c a = true ↔
          ∃ s, a.severity = some s ∧ s ≠ "" ∧ jsLower s = jsLower c.selectedSeverity))
  ∧ (∀ (c : NewsCriteria) (a : Article), c.selectedCVE ≠ "All" →
        (cveClause c a = true ↔
          ∃ s, a.cve = some s ∧ s ≠ "" ∧ jsLower s = jsLower c.selectedCVE))
  ∧ (∀ (c : RangeCriteria) (a : Article), c.selectedCategory ≠ "All" →
        (rCatClause c a = true ↔ a.category = some c.selectedCategory))
  ∧ (∀ (c : RangeCriteria) (a : Article), c.selectedSeverity ≠ "All" →
        (rSevClause c a = true ↔ a.severity = some c.selectedSeverity))
  ∧ (∀ (c : RangeCriteria) (a : Article), c.selectedCVE ≠ "All" →
        (rCveClause c a = true ↔ a.cve = some c.selectedCVE))
  ∧ (∀ (l : List SiteRec) (s : SiteRec),
        s ∈ phishStatusStage "mitigated" l ↔ s ∈ l ∧ s.status = "taken-down") := by
  refine ⟨?_, ?_, ?_, ?_, ?_, ?_, ?_⟩
  · intro c a h
    unfold categoryClause
    exact ciClause_iff c.selectedCategory a.category h
  · intro c a h
    unfold severityClause
    exact ciClause_iff c.selectedSeverity a.severity h
  · intro c a h
    unfold cveClause
    exact ciClause_iff c.selectedCVE a.cve h
  · intro c a h
    unfold rCatClause
    exact exactClause_iff c.selectedCategory a.category h
  · intro c a h
    unfold rSevClause
    exact exactClause_iff c.selectedSeverity a.severity h
  · intro c a h
    unfold rCveClause
    exact exactClause_iff c.selectedCVE a.cve h
  · intro l s
    unfold phishStatusStage
    rw [(by decide : (("mitigated" : String) == "detected") = false)]
    simp only [Bool.false_eq_true, if_false]
    rw [if_pos (by decide : (("mitigated" : String) == "mitigated") = true)]
    simp [List.mem_filter]

/-- News criteria selecting the lower-cased category "malware". -/
def critCI : NewsCriteria :=
  { selectedCategory := "malware", selectedSeverity := "All", selectedCVE := "All",
    timeFilter := "Latest", useDateRange := false, startDate := "", endDate := "" }

/-- Taken-down phishing site used by witnesses. -/
def siteTD : SiteRec :=
  { id := "ps-003", url := "https://tamm.ae.phishing-example.net",
    detectedDate := "2025-02-10T08:30:00Z", similarityScore := 92,
    status := "taken-down", targetPage := "login" }

/-- Witness for the amended C6 at concrete inputs. -/
theorem categoricalMatchPerScreen_w :
    categoryClause critCI artCase = true ∧
    siteTD ∈ phishStatusStage "mitigated" [siteTD] :=
  ⟨(categoricalMatchPerScreen.1 critCI artCase (by decide)).mpr
      ⟨"Malware", rfl, by decide, by decide⟩,
   (categoricalMatchPerScreen.2.2.2.2.2.2 [siteTD] siteTD).mpr
      ⟨List.mem_singleton.mpr rfl, rfl⟩⟩

/-- C7, evaluated at the failing input.  First scan after mount, reported
status sequence running, running, completed (and the snapshot staying
completed afterwards): `checkScanProgress` runs inside the interval callback
whose closure captured `scanInterval = null`, so `clearInterval` is never
reached — after the terminal poll the interval is still installed, and the
next tick repeats the `fetchSites(); fetchStats();` refresh instead of there
being exactly one. -/
theorem scanPollDoesNotStop :
    (runScan ["running", "running", "completed"]).intervalsLive = [1] ∧
    (runScan ["running", "running", "completed"]).refreshes = 1 ∧
    (runScan ["running", "running", "completed", "completed"]).refreshes = 2 :=
  ⟨by decide, by decide, by decide⟩

/-- C8, evaluated at the failing input.  The unmount cleanup runs the closure
captured by the mount-time effect, whose `scanInterval` is the initial null of the
first render; unmounting during a scan therefore clears nothing and the poll
interval stays installed. -/
theorem unmountLeavesPollRunning :
    (runScanThenUnmount ["running"]).intervalsLive = [1] ∧
    (runScanThenUnmount ["running"]).scanInProgress = true :=
  ⟨by decide, by decide⟩

/-- C9.  Filtering and sorting never mutate the source collection: on the
explicit array store, `handleSearch` (which filters, copies and sorts the
copy in place), `filteredNews` and `fetchPhishingSites` leave every
pre-existing array cell — in particular the fetched source array, its record
values and their order — exactly as it was. -/
theorem filteringNeverMutatesSource :
    (∀ (σ : StoreOf Article) (i newsId : Nat) (c : NewsCriteria) (now : Int),
        i < σ.next → (handleSearchStore σ newsId c now).1.mem i = σ.mem i)
  ∧ (∀ (σ : StoreOf Article) (i newsId : Nat) (c : RangeCriteria),
        i < σ.next → (filteredNewsStore σ newsId c).1.mem i = σ.mem i)
  ∧ (∀ (σ : StoreOf SiteRec) (i srcId : Nat) (p : PhishFilters) (now : Int),
        i < σ.next → (fetchPhishingSitesStore σ srcId p now).1.mem i = σ.mem i) := by
  refine ⟨?_, ?_, ?_⟩
  · intro σ i newsId c now h
    have h1 : i ≠ σ.next := by omega
    have h2 : i ≠ σ.next + 1 := by omega
    simp [handleSearchStore, StoreOf.alloc, StoreOf.write, h1, h2]
  · intro σ i newsId c h
    have h1 : i ≠ σ.next := by omega
    simp [filteredNewsStore, StoreOf.alloc, h1]
  · intro σ i srcId p now h
    have h1 : i ≠ σ.next := by omega
    have h2 : i ≠ σ.next + 1 := by omega
    simp [fetchPhishingSitesStore, StoreOf.alloc, h1, h2]

/-- One-cell store holding the article list, used by the C9 witness. -/
def storeW : StoreOf Article :=
  { mem := fun _ => [artW], next := 1 }

/-- Witness for C9 at a concrete store. -/
theorem filteringNeverMutatesSource_w :
    (handleSearchStore storeW 0 critW 1740009600000).1.mem 0 = storeW.mem 0 ∧
    (filteredNewsStore storeW 0 rcritW).1.mem 0 = storeW.mem 0 :=
  ⟨filteringNeverMutatesSource.1 storeW 0 0 critW 1740009600000 (by decide),
   filteringNeverMutatesSource.2.1 storeW 0 0 rcritW (by decide)⟩

/-- C10.  In the custom date range of the news screen the end bound is inclusive
of the whole end day: the parsed end date (a UTC midnight) is pushed to
23:59:59.999 of its day before comparison, so with the custom filter active
and only an end date set, a record timestamped at any time of that day
passes the date clause, while a record timestamped strictly after that day
fails it. -/
theorem endDateInclusiveDay (c : NewsCriteria) (a : Article) (now e t : Int)
    (pd : String)
    (hc : c.timeFilter = "Custom") (hu : c.useDateRange = true)
    (hsd : c.startDate = "") (hed : parseDate c.endDate = some e)
    (hday : Int.emod e 86400000 = 0)
    (hpd : a.published_date = some pd) (hpdne : pd ≠ "")
    (ht : parseDate pd = some t) :
    endOfDay e = e + 86399999
    ∧ (e ≤ t ∧ t ≤ e + 86399999 → dateClause c now a = true)
    ∧ (e + 86399999 < t → dateClause c now a = false) := by
  have hq : 86400000 * Int.ediv e 86400000 + Int.emod e 86400000 = e :=
    Int.ediv_add_emod e 86400000
  have hend : endOfDay e = e + 86399999 := by
    unfold endOfDay
    omega
  have hedne : c.endDate ≠ "" := by
    intro h0
    rw [h0] at hed
    exact Option.noConfusion ((by decide : parseDate "" = none) ▸ hed)
  have hbe : (c.endDate == "") = false := by simpa using hedne
  have hpdbe : (pd == "") = false := by simpa using hpdne
  have hred : dateClause c now a = decide (t ≤ endOfDay e) := by
    unfold dateClause
    rw [hpd]
    simp [truthyStr, hpdbe, ht, hc, hu, hsd, hbe, hed, jsLEopt]
  refine ⟨hend, fun h12 => ?_, fun h3 => ?_⟩
  · rw [hred, hend]
    exact decide_eq_true (by omega)
  · rw [hred, hend]
    simp only [decide_eq_false_iff_not]
    omega

/-- Custom-range criteria with only an end date, for the C10 witness. -/
def critCustom : NewsCriteria :=
  { selectedCategory := "All", selectedSeverity := "All", selectedCVE := "All",
    timeFilter := "Custom", useDateRange := true, startDate := "",
    endDate := "2025-02-20" }

/-- Witness for C10: a record at 23:00 of the end day passes the clause. -/
theorem endDateInclusiveDay_w :
    dateClause critCustom 0 (mkArt (some "2025-02-20T23:00:00Z")) = true :=
  (endDateInclusiveDay critCustom (mkArt (some "2025-02-20T23:00:00Z")) 0
      1740009600000 1740092400000 "2025-02-20T23:00:00Z"
      rfl rfl rfl (by decide) (by decide) rfl (by decide) (by decide)).2.1
    ⟨by decide, by decide⟩





